import Mathlib

/-!
Verification development for the video-context-generation pipeline
(frameExtractor.py, caption_images_enhanced.py, global_context_builder.py).

The Python code is shallowly embedded: machine floats are modelled as
rationals, JSON values as an inductive `PyVal`, fallible operations as
`Option`/`PyResult`, and the per-video file store as an association list.
External collaborators (the ollama inference backend, the JSON parser of
the standard library, the filesystem) are modelled by their observable
outcome, passed in as parameters.
-/

/-- Python/JSON values as they flow through the pipeline.  `set` is included
because one code path builds a Python set display; sets are not JSON but
exist transiently during evaluation. -/
inductive PyVal where
  | null : PyVal
  | bool (b : Bool) : PyVal
  | num (q : ℚ) : PyVal
  | str (s : String) : PyVal
  | arr (elts : List PyVal) : PyVal
  | obj (fields : List (String × PyVal)) : PyVal
  | set (elts : List PyVal) : PyVal

/-- Result of evaluating a Python expression: a value, or a raised
exception carrying its message. -/
inductive PyResult (α : Type) where
  | ok (a : α) : PyResult α
  | exc (msg : String) : PyResult α
deriving DecidableEq

/-- First-match lookup in an association list, the read side of a Python
dict or of the per-video caption directory. -/
def lookupKey : List (String × PyVal) → String → Option PyVal
  | [], _ => none
  | (k, v) :: rest, key => if k = key then some v else lookupKey rest key

/-- Python dict item assignment `d[key] = v`: overwrite the existing entry
in place, or append a new one at the end. -/
def setKey : List (String × PyVal) → String → PyVal → List (String × PyVal)
  | [], key, v => [(key, v)]
  | (k, w) :: rest, key, v =>
      if k = key then (k, v) :: rest else (k, w) :: setKey rest key v

/-- Field access on a JSON object value. -/
def getField : PyVal → String → Option PyVal
  | .obj fields, key => lookupKey fields key
  | _, _ => none

/-- The list of keys of a JSON object value. -/
def objKeys : PyVal → List String
  | .obj fields => fields.map (·.1)
  | _ => []

/-!
## Transcript Index (caption_images_enhanced.get_transcript_from_cache)

A CSV row of `transcript_16k_word_ts.csv` as consumed by the worker:
`float(r["start_sec"])` either yields a rational or raises `ValueError`
(modelled as `none`), and `r["word"]` is the word text.
-/

structure Row where
  start_sec : Option ℚ
  word : String
deriving DecidableEq

/-- Embedding of `get_transcript_from_cache(transcript_data, timestamp, window=3.0)`.
`cache = none` models a missing/unreadable CSV (load returned `None`); the
Python truthiness test `if not transcript_data` is also taken by an empty
row list.  A row whose `start_sec` does not parse raises `ValueError`,
which the `except ValueError: continue` turns into a skip. -/
def get_transcript_from_cache (cache : Option (List Row)) (timestamp : ℚ)
    (window : ℚ := 3) : String :=
  match cache with
  | none => "no transcription available"
  | some rows =>
      if rows.isEmpty then "no transcription available"
      else
        let words := rows.filterMap (fun r =>
          match r.start_sec with
          | some start => if |start - timestamp| ≤ window then some r.word else none
          | none => none)
        if words.isEmpty then "silence" else String.intercalate " " words

/-- The words selected by the spec sentence: words of the rows whose
(parsable) start_sec lies within the radius, in stored order. -/
def window_words (rows : List Row) (t r : ℚ) : List String :=
  (rows.filter (fun row =>
    match row.start_sec with
    | some s => decide (|s - t| ≤ r)
    | none => false)).map (·.word)

/-!
## Caption Worker (caption_images_enhanced.process_single_image / save_caption)

The externally determined facts of one frame-caption attempt:
* `fileExists`  — the `os.path.exists(image_path)` check;
* `stem`        — the value of `float(Path(image_file).stem)`, `none` when
  that raises `ValueError`;
* `readOk`      — whether `open(image_path, "rb").read()` succeeds;
* `response`    — outcome of `client.chat(...)` followed by `json.loads` on
  the returned content: `none` when the chat call raises, `some none` when
  the content string is not valid JSON, `some (some v)` when it parses to
  the value `v`.
-/

structure FrameJob where
  fileExists : Bool
  stem : Option ℚ
  readOk : Bool
  response : Option (Option PyVal)

/-- The `error_entry` dict built by the `except` branch of
`process_single_image`; `msg` stands for `str(e)`. -/
def caption_error_entry (msg : String) : PyVal :=
  .obj [("description", .str ("Processing error: " ++ msg)),
        ("entities", .arr []),
        ("actions", .arr []),
        ("error", .bool true)]

/-- Python dict item assignment `content_dict["transcript"] = transcript`:
succeeds only on a dict; on every other value it raises `TypeError`. -/
def setItem (v : PyVal) (key : String) (w : PyVal) : Option PyVal :=
  match v with
  | .obj fields => some (.obj (setKey fields key w))
  | _ => none

/-- Embedding of `process_single_image`.  Returns the document persisted by
`save_caption` for this frame (`none` when nothing is written) together
with the status string returned to the scheduler.  The source first checks
file existence (returning early, saving nothing), then inside `try`:
parses the filename stem, computes the transcript window, reads the image
bytes, issues the inference call, parses the response, sets the
`transcript` key, and saves; any exception falls to the `except` branch,
which saves `caption_error_entry` (the source round-trips it through
`json.dumps`/`json.loads`, the identity on JSON values).  The message
strings stand for the Python exception texts `str(e)`. -/
def process_single_image (j : FrameJob) (cache : Option (List Row)) :
    Option PyVal × String :=
  if j.fileExists = false then (none, "missing")
  else
    match j.stem with
    | none => (some (caption_error_entry "could not convert string to float"), "failed")
    | some timestamp =>
        let transcript := get_transcript_from_cache cache timestamp
        if j.readOk = false then
          (some (caption_error_entry "could not read image bytes"), "failed")
        else
          match j.response with
          | none => (some (caption_error_entry "inference call failed"), "failed")
          | some none =>
              (some (caption_error_entry "response content is not valid JSON"), "failed")
          | some (some content) =>
              match setItem content "transcript" (.str transcript) with
              | none =>
                  (some (caption_error_entry "response is not a JSON object"), "failed")
              | some doc => (some doc, "ok")

/-- Whether the `try` block of `process_single_image` raises for this job
(the file-existence check is earlier and separate). -/
def jobFails (j : FrameJob) : Bool :=
  match j.stem, j.readOk, j.response with
  | none, _, _ => true
  | some _, false, _ => true
  | some _, true, none => true
  | some _, true, some none => true
  | some _, true, some (some (.obj _)) => false
  | some _, true, some (some _) => true

/-- The batch run of `process_video_images`: each submitted frame job is
handed to `process_single_image`; the persisted caption records are
collected.  Each job writes to its own file key, so the record count is
the count of jobs that persisted something; thread scheduling permutes
only completion reporting, not the set of files written. -/
def run_batch (jobs : List FrameJob) (cache : Option (List Row)) : List PyVal :=
  jobs.filterMap (fun j => (process_single_image j cache).1)

/-!
## Context/Caption Store (save_caption / load, flat per-video directory)

`save_caption` writes (and overwrites) the file keyed by the image name;
reloading reads it back.
-/

/-- Write a document at a key, overwriting any previous file. -/
def store_save (st : List (String × PyVal)) (key : String) (v : PyVal) :
    List (String × PyVal) :=
  setKey st key v

/-- Read the document at a key, `none` when absent. -/
def store_load (st : List (String × PyVal)) (key : String) : Option PyVal :=
  lookupKey st key

/-!
## Timestamp Planner (frameExtractor.get_all_frames)

The loop `for i in range(len(keyframes))` has three branches: `i == 0`
emits only the first keyframe timestamp; `i == len(keyframes) - 1` probes
the video duration and emits the keyframe, two interior points toward
`duration - 0.1`, and that synthetic end boundary itself; every other `i`
emits the keyframe and two interior points toward the next keyframe.
Keyframes are represented by their `pts_time` rationals; the duration (a
successful ffprobe) is a parameter.  For one keyframe only the `i == 0`
branch runs; for zero keyframes the loop body never runs.  `goFrames`
renders the iterations `i = 1 .. len-1`: its argument is the keyframe list
from index `i` on, so a two-element head gives an interior iteration and a
singleton gives the final iteration.
-/

/-- The four tail-segment emissions of the final loop iteration. -/
def tailSeg (t0 t1 : ℚ) : List ℚ :=
  [t0, t0 + (t1 - t0) / 3, t0 + 2 * (t1 - t0) / 3, t1]

/-- The three emissions of an interior loop iteration. -/
def interSeg (t0 t1 : ℚ) : List ℚ :=
  [t0, t0 + (t1 - t0) / 3, t0 + 2 * (t1 - t0) / 3]

/-- Iterations `i = 1 .. len-1` of the `get_all_frames` loop. -/
def goFrames (d : ℚ) : List ℚ → List ℚ
  | [] => []
  | [t0] => tailSeg t0 (d - 1/10)
  | t0 :: t1 :: rest => interSeg t0 t1 ++ goFrames d (t1 :: rest)

/-- Embedding of `get_all_frames(keyframes, ...)` over exact rationals,
before the `f"{t:.2f}"` formatting of each emitted value. -/
def get_all_frames (keyframes : List ℚ) (duration : ℚ) : List ℚ :=
  match keyframes with
  | [] => []
  | [t0] => [t0]
  | t0 :: rest => t0 :: goFrames duration rest

/-- The `f"{t:.2f}"` formatting, as the integer count of hundredths the
printed string denotes.  The exact tie-breaking of float formatting is
immaterial to the claims (only monotonicity and value identity are used),
so rounding to the nearest hundredth stands for it. -/
def fmt2 (q : ℚ) : ℤ :=
  round (100 * q)

/-- The plan as persisted to `all_frames.json`: every emission formatted
to two decimals. -/
def get_all_frames_fmt (keyframes : List ℚ) (duration : ℚ) : List ℤ :=
  (get_all_frames keyframes duration).map fmt2

/-!
## Global Context Builder (global_context_builder.py)
-/

/-- The index selection of the large branch of `sample_keyframes`:
`indices = [int(i * step) for i in range(max_frames - 1)]` followed by
`indices.append(len(images) - 1)`, with `step = len(images) / (max_frames - 1)`.
`int(x)` truncates a non-negative float, i.e. takes the floor. -/
def sample_idx_list (n m : ℕ) : List ℕ :=
  let step : ℚ := (n : ℚ) / ((m : ℚ) - 1)
  ((List.range (m - 1)).map (fun i : ℕ => (⌊(i : ℚ) * step⌋).toNat)) ++ [n - 1]

/-- Embedding of `sample_keyframes` (pass-1 sampling).  The images of the
frame directory are represented by their timestamp stems; the source
sorts them by `float(Path(x).stem)` before selecting.  The large branch
takes the images at `sorted(list(set(indices)))`.  The theorems restrict
to `2 ≤ maxFrames` (the source default is 8); for `maxFrames = 1` the
Python division raises `ZeroDivisionError`. -/
def sample_keyframes (images : List ℚ) (maxFrames : ℕ) : List ℚ :=
  let sortedImages := images.insertionSort (· ≤ ·)
  if sortedImages.length ≤ maxFrames then sortedImages
  else
    ((sample_idx_list sortedImages.length maxFrames).dedup.insertionSort (· ≤ ·)).map
      (fun i => sortedImages.getD i 0)

/-- Python truthiness of the values at hand (`if existing:`): containers
and strings are truthy when non-empty, numbers when non-zero. -/
def truthy : PyVal → Bool
  | .null => false
  | .bool b => b
  | .num q => decide (q ≠ 0)
  | .str s => !s.isEmpty
  | .arr l => !l.isEmpty
  | .obj fields => !fields.isEmpty
  | .set l => !l.isEmpty

/-- Embedding of `global_context_builder.execute(video_file, force_rebuild)`
at the store level.  `persisted` is the content of `global_context.json`
(when the file exists), `built` stands for the result of
`build_global_context` (which issues inference calls).  Returned:
the context handed back, the new persisted content, and whether the
rebuild path (hence inference) was taken. -/
def gcb_execute (persisted : Option PyVal) (force_rebuild : Bool) (built : PyVal) :
    PyVal × Option PyVal × Bool :=
  match force_rebuild, persisted with
  | false, some existing =>
      if truthy existing then (existing, some existing, false)
      else (built, some built, true)
  | false, none => (built, some built, true)
  | true, _ => (built, some built, true)

/-- Hashability of the values at hand: Python dicts, lists and sets are
unhashable, so placing one in a set raises `TypeError`. -/
def hashable : PyVal → Bool
  | .obj _ => false
  | .arr _ => false
  | .set _ => false
  | _ => true

/-- A Python one-element set display `{ e }`: hashes its element, raising
`TypeError` on an unhashable one. -/
def pySetOf1 (v : PyVal) : PyResult PyVal :=
  if hashable v then .ok (.set [v]) else .exc "unhashable type: dict"

/-- Evaluation of the fallback expression of `_synthesize_context`.  The
source writes the fallback with doubled braces, so each doubly-braced
layer is a set display whose sole element is a dict display.  Python
evaluates the innermost displays first: the value of the `entities` entry
is a set containing a dict, whose construction already raises. -/
def synth_fallback : PyResult PyVal :=
  match pySetOf1 (.obj [("people", .arr []), ("locations", .arr []),
                        ("objects", .arr [])]) with
  | .exc m => .exc m
  | .ok entitiesVal =>
      match pySetOf1 (.obj []) with
      | .exc m => .exc m
      | .ok speakerMapVal =>
          pySetOf1 (.obj
            [("summary", .str "Video context synthesis failed"),
             ("entities", entitiesVal),
             ("narrative_style", .str "unknown"),
             ("speaker_map", speakerMapVal),
             ("key_moments", .arr [])])

/-- Embedding of `_synthesize_context`: the prompt is sent once; `resp` is
`none` when `ollama.chat` raises, `some none` when the returned content is
not parsable JSON, `some (some v)` when `json.loads` yields `v`.  On the
two failure cases control reaches the `except` branch, whose `return`
expression is `synth_fallback`. -/
def synthesize_context (resp : Option (Option PyVal)) : PyResult PyVal :=
  match resp with
  | some (some v) => .ok v
  | _ => synth_fallback

/-- The planner run with exceptions representable.  Given the keyframe
list, every statement of the `get_all_frames` loop is total (the duration
probe is modelled by the `duration` parameter, and for an empty keyframe
list the loop body — probe included — never executes), so the run always
completes with the computed plan. -/
def get_all_frames_run (keyframes : List ℚ) (duration : ℚ) : PyResult (List ℚ) :=
  .ok (get_all_frames keyframes duration)

/-!
## Helper lemmas
-/

theorem lookupKey_setKey_same (fs : List (String × PyVal)) (k : String) (v : PyVal) :
    lookupKey (setKey fs k v) k = some v := by
  induction fs with
  | nil => simp [setKey, lookupKey]
  | cons hd tl ih =>
      obtain ⟨k', w⟩ := hd
      by_cases h : k' = k
      · simp [setKey, lookupKey, h]
      · simp [setKey, lookupKey, h, ih]

theorem lookupKey_setKey_other (fs : List (String × PyVal)) (k k' : String) (v : PyVal)
    (h : k' ≠ k) : lookupKey (setKey fs k v) k' = lookupKey fs k' := by
  induction fs with
  | nil =>
      have hk : ¬k = k' := fun h0 => h h0.symm
      simp [setKey, lookupKey, hk]
  | cons hd tl ih =>
      obtain ⟨k0, w⟩ := hd
      by_cases h0 : k0 = k
      · subst h0
        have hk : ¬k0 = k' := fun h1 => h h1.symm
        simp [setKey, lookupKey, hk]
      · simp only [setKey, if_neg h0]
        by_cases h1 : k0 = k'
        · simp [lookupKey, h1]
        · simp [lookupKey, h1, ih]

theorem transcript_filterMap_eq_window_words (rows : List Row) (t r : ℚ) :
    rows.filterMap (fun row =>
      match row.start_sec with
      | some s => if |s - t| ≤ r then some row.word else none
      | none => none) = window_words rows t r := by
  induction rows with
  | nil => rfl
  | cons hd tl ih =>
      obtain ⟨s?, w⟩ := hd
      cases s? with
      | none => simpa [window_words, List.filterMap, List.filter] using ih
      | some s =>
          by_cases h : |s - t| ≤ r <;>
            simpa [window_words, List.filterMap, List.filter, h] using ih

theorem goFrames_length (d : ℚ) (l : List ℚ) (h : l ≠ []) :
    (goFrames d l).length = 3 * (l.length - 1) + 4 := by
  induction l with
  | nil => exact absurd rfl h
  | cons a tl ih =>
      cases tl with
      | nil => simp [goFrames, tailSeg]
      | cons b tl2 =>
          have ih2 := ih (List.cons_ne_nil b tl2)
          have hg : goFrames d (a :: b :: tl2) = interSeg a b ++ goFrames d (b :: tl2) := rfl
          rw [hg, List.length_append, ih2]
          simp only [interSeg, List.length_cons, List.length_nil]
          omega

theorem goFrames_head (d a : ℚ) (l : List ℚ) :
    (goFrames d (a :: l)).head? = some a := by
  cases l <;> rfl

theorem goFrames_chain (d : ℚ) (l : List ℚ) (hl : List.Chain' (· ≤ ·) l)
    (hlast : l.getLast?.getD 0 ≤ d - 1/10) :
    List.Chain' (· ≤ ·) (goFrames d l) := by
  induction l with
  | nil => simp [goFrames]
  | cons a tl ih =>
      cases tl with
      | nil =>
          have ha : a ≤ d - 1/10 := by simpa using hlast
          simp only [goFrames, tailSeg, List.chain'_cons, List.chain'_singleton,
            and_true]
          refine ⟨by linarith, by linarith, by linarith⟩
      | cons b tl2 =>
          have hab : a ≤ b := (List.chain'_cons.mp hl).1
          have htl : List.Chain' (· ≤ ·) (b :: tl2) := (List.chain'_cons.mp hl).2
          have hlast2 : (b :: tl2).getLast?.getD 0 ≤ d - 1/10 := by
            simpa [List.getLast?_cons_cons] using hlast
          have hrec := ih htl hlast2
          simp only [goFrames]
          rw [List.chain'_append]
          refine ⟨?_, hrec, ?_⟩
          · simp only [interSeg, List.chain'_cons, List.chain'_singleton, and_true]
            constructor <;> linarith
          · intro x hx y hy
            simp only [interSeg, List.getLast?] at hx
            rw [goFrames_head] at hy
            simp at hx hy
            subst hx
            subst hy
            linarith

theorem get_all_frames_head (kfs : List ℚ) (d : ℚ) :
    (get_all_frames kfs d).head? = kfs.head? := by
  match kfs with
  | [] => rfl
  | [t0] => rfl
  | t0 :: t1 :: rest => rfl

theorem get_all_frames_chain (kfs : List ℚ) (d : ℚ)
    (hk : List.Chain' (· ≤ ·) kfs)
    (hlast : kfs.getLast?.getD 0 ≤ d - 1/10) :
    List.Chain' (· ≤ ·) (get_all_frames kfs d) := by
  match kfs with
  | [] => simp [get_all_frames]
  | [t0] => simp [get_all_frames]
  | t0 :: t1 :: rest =>
      show List.Chain' (· ≤ ·) (t0 :: goFrames d (t1 :: rest))
      rw [List.chain'_cons']
      constructor
      · intro y hy
        rw [goFrames_head] at hy
        have ht : t0 ≤ t1 := (List.chain'_cons.mp hk).1
        simp at hy
        subst hy
        exact ht
      · exact goFrames_chain d (t1 :: rest) (List.chain'_cons.mp hk).2
          (by simpa [List.getLast?_cons_cons] using hlast)

theorem fmt2_mono {a b : ℚ} (h : a ≤ b) : fmt2 a ≤ fmt2 b := by
  unfold fmt2
  rw [round_eq, round_eq]
  exact Int.floor_le_floor (by linarith)

/-!
## Claim theorems
-/

/-- C2 counterexample.  The claim says the plan for k keyframes has
3*(k-1) + 4 elements (and 4 for k = 1); the code emits only the first
keyframe for i = 0, giving 5 elements for k = 2 and 1 element for k = 1. -/
theorem claim2_counterexample :
    (get_all_frames [0, 2] 10).length ≠ 3 * (2 - 1) + 4 ∧
    (get_all_frames [0] 10).length ≠ 4 := by
  constructor <;> decide

/-- C2 (amended): for every keyframe list of length k ≥ 2 the planner
output has exactly 3*(k-1) + 2 elements (the segment between the first
two keyframes gets no interior points), and for k = 1 it has exactly 1
element (only the first keyframe's timestamp; the tail expansion needs
k ≥ 2). -/
theorem claim2_plan_length :
    (∀ (kfs : List ℚ) (d : ℚ), 2 ≤ kfs.length →
      (get_all_frames kfs d).length = 3 * (kfs.length - 1) + 2) ∧
    (∀ (t d : ℚ), (get_all_frames [t] d).length = 1) := by
  constructor
  · intro kfs d hk
    match kfs with
    | [] => simp at hk
    | [t0] => simp at hk
    | t0 :: t1 :: rest =>
        have hg : get_all_frames (t0 :: t1 :: rest) d
            = t0 :: goFrames d (t1 :: rest) := rfl
        rw [hg, List.length_cons, goFrames_length d (t1 :: rest) (List.cons_ne_nil t1 rest)]
        simp only [List.length_cons]
        omega
  · intro t d
    rfl

/-- C2 witness: the amended length law evaluated on a concrete 3-keyframe
plan. -/
theorem claim2_witness :
    2 ≤ ([0, 2, 5] : List ℚ).length ∧
    (get_all_frames [0, 2, 5] 10).length = 3 * (([0, 2, 5] : List ℚ).length - 1) + 2 :=
  ⟨by decide, claim2_plan_length.1 [0, 2, 5] 10 (by decide)⟩

/-- C8 counterexample.  The claim says an empty keyframe list makes the
planner fail with an EmptyKeyframeSet error; the loop body never runs, no
statement raises, and the run completes with the empty plan. -/
theorem claim8_counterexample : get_all_frames_run [] 10 = .ok [] := rfl

/-- C8 (amended): for an empty keyframe list the planner does not fail; it
completes and produces the empty plan (the `for` loop body, duration probe
included, never executes and an empty `all_frames.json` is written). -/
theorem claim8_empty_plan : ∀ d : ℚ, get_all_frames_run [] d = .ok [] := by
  intro d
  rfl

/-- C7: for every non-empty non-decreasing keyframe list whose last
timestamp is at most duration - 0.1, the formatted plan is non-decreasing
and its first element is the first keyframe timestamp formatted to two
decimals; and on the 5-keyframe scenario [0, 2, 5, 9, 9] with duration 10
the planner completes, the zero-length interval collapsing to repeated
identical timestamps. -/
theorem claim7_plan_monotone :
    (∀ (kfs : List ℚ) (d : ℚ), kfs ≠ [] →
      List.Chain' (· ≤ ·) kfs →
      kfs.getLast?.getD 0 ≤ d - 1/10 →
      List.Chain' (· ≤ ·) (get_all_frames_fmt kfs d) ∧
      (get_all_frames_fmt kfs d).head? = kfs.head?.map fmt2) ∧
    get_all_frames [0, 2, 5, 9, 9] 10 =
      [0, 2, 3, 4, 5, 19/3, 23/3, 9, 9, 9, 9, 93/10, 48/5, 99/10] := by
  constructor
  · intro kfs d hne hk hlast
    constructor
    · unfold get_all_frames_fmt
      rw [List.chain'_map]
      exact List.Chain'.imp (fun a b hab => fmt2_mono hab)
        (get_all_frames_chain kfs d hk hlast)
    · unfold get_all_frames_fmt
      rw [List.head?_map, get_all_frames_head]
  · show (0 : ℚ) :: goFrames 10 [2, 5, 9, 9] = _
    norm_num [goFrames, interSeg, tailSeg]

/-- C7 witness: the monotonicity law instantiated on the scenario
keyframes [0, 2, 5, 9, 9] with duration 10. -/
theorem claim7_witness :
    (([0, 2, 5, 9, 9] : List ℚ) ≠ [] ∧
     List.Chain' (· ≤ ·) ([0, 2, 5, 9, 9] : List ℚ) ∧
     ([0, 2, 5, 9, 9] : List ℚ).getLast?.getD 0 ≤ 10 - 1/10) ∧
    (List.Chain' (· ≤ ·) (get_all_frames_fmt [0, 2, 5, 9, 9] 10) ∧
     (get_all_frames_fmt [0, 2, 5, 9, 9] 10).head? =
       ([0, 2, 5, 9, 9] : List ℚ).head?.map fmt2) :=
  ⟨⟨by simp, by norm_num [List.chain'_cons], by norm_num [List.getLast?_cons_cons]⟩,
   claim7_plan_monotone.1 [0, 2, 5, 9, 9] 10 (by simp)
     (by norm_num [List.chain'_cons]) (by norm_num [List.getLast?_cons_cons])⟩

/-- C3: on synthesis failure (inference call raising, or unparsable
response content) the code does not return the empty GlobalContext: its
fallback literal is written with doubled braces, a Python set display
containing a dict, and constructing it raises TypeError. -/
theorem claim3_fallback_raises :
    synthesize_context none = .exc "unhashable type: dict" ∧
    synthesize_context (some none) = .exc "unhashable type: dict" :=
  ⟨rfl, rfl⟩

theorem psi_persists (j : FrameJob) (cache : Option (List Row))
    (hfe : j.fileExists = true) :
    ∃ r, (process_single_image j cache).1 = some r := by
  obtain ⟨fe, stem, ro, resp⟩ := j
  cases fe with
  | false => simp at hfe
  | true =>
      cases stem with
      | none => exact ⟨_, rfl⟩
      | some ts =>
          cases ro with
          | false => exact ⟨_, rfl⟩
          | true =>
              cases resp with
              | none => exact ⟨_, rfl⟩
              | some inner =>
                  cases inner with
                  | none => exact ⟨_, rfl⟩
                  | some content =>
                      cases content with
                      | null => exact ⟨_, rfl⟩
                      | bool b => exact ⟨_, rfl⟩
                      | num q => exact ⟨_, rfl⟩
                      | str s => exact ⟨_, rfl⟩
                      | arr l => exact ⟨_, rfl⟩
                      | obj fields => exact ⟨_, rfl⟩
                      | set l => exact ⟨_, rfl⟩

theorem psi_error_record (j : FrameJob) (cache : Option (List Row))
    (hfe : j.fileExists = true) (hfail : jobFails j = true) :
    ∃ m, (process_single_image j cache).1 = some (caption_error_entry m) := by
  obtain ⟨fe, stem, ro, resp⟩ := j
  cases fe with
  | false => simp at hfe
  | true =>
      cases stem with
      | none => exact ⟨_, rfl⟩
      | some ts =>
          cases ro with
          | false => exact ⟨_, rfl⟩
          | true =>
              cases resp with
              | none => exact ⟨_, rfl⟩
              | some inner =>
                  cases inner with
                  | none => exact ⟨_, rfl⟩
                  | some content =>
                      cases content with
                      | null => exact ⟨_, rfl⟩
                      | bool b => exact ⟨_, rfl⟩
                      | num q => exact ⟨_, rfl⟩
                      | str s => exact ⟨_, rfl⟩
                      | arr l => exact ⟨_, rfl⟩
                      | obj fields => simp [jobFails] at hfail
                      | set l => exact ⟨_, rfl⟩

/-- C1 counterexample.  A frame whose image file is missing makes
`process_single_image` return early without persisting anything, so a
batch of one such frame yields zero records, not one. -/
theorem claim1_counterexample :
    (run_batch [⟨false, some 1, true, none⟩] none).length ≠
      ([(⟨false, some 1, true, none⟩ : FrameJob)] : List FrameJob).length := by
  decide

/-- C1 (amended): every submitted frame whose image file exists produces
exactly one persisted CaptionRecord — on any failure inside the `try`
block (stem parse failure, unreadable bytes, inference exception,
unparsable or non-object response) the worker persists the error record
with `error: true`, empty entities and actions, and a description naming
the failure — so the record count equals the count of frames whose image
file exists, even when 100% of inference calls fail; a frame whose image
file is missing produces no record at all. -/
theorem claim1_every_frame_persisted :
    (∀ (jobs : List FrameJob) (cache : Option (List Row)),
        (∀ j ∈ jobs, j.fileExists = true) →
        (run_batch jobs cache).length = jobs.length) ∧
    (∀ (j : FrameJob) (cache : Option (List Row)),
        j.fileExists = true → jobFails j = true →
        ∃ m, (process_single_image j cache).1 = some (caption_error_entry m)) := by
  constructor
  · intro jobs cache hall
    induction jobs with
    | nil => rfl
    | cons j tl ih =>
        have hj : j.fileExists = true := hall j (List.mem_cons_self j tl)
        obtain ⟨r, hr⟩ := psi_persists j cache hj
        have htl := ih (fun x hx => hall x (List.mem_cons_of_mem j hx))
        have hstep : run_batch (j :: tl) cache = r :: run_batch tl cache := by
          simp [run_batch, List.filterMap_cons, hr]
        rw [hstep, List.length_cons, htl, List.length_cons]
  · exact fun j cache hfe hfail => psi_error_record j cache hfe hfail

/-- C1 witness: a two-frame batch whose inference calls all fail (one
raising, one returning unparsable content) still persists one record per
frame. -/
theorem claim1_witness :
    (∀ j ∈ [(⟨true, some 1, true, none⟩ : FrameJob), ⟨true, some 2, true, some none⟩],
        j.fileExists = true) ∧
    (run_batch [(⟨true, some 1, true, none⟩ : FrameJob),
        ⟨true, some 2, true, some none⟩] none).length =
      ([(⟨true, some 1, true, none⟩ : FrameJob),
        ⟨true, some 2, true, some none⟩] : List FrameJob).length :=
  ⟨by decide, claim1_every_frame_persisted.1 _ none (by decide)⟩

/-- C10: a persisted error record contains exactly the fields description,
entities, actions and error — in particular no transcript field — while
every success-path record carries a transcript field. -/
theorem claim10_record_fields :
    (∀ (j : FrameJob) (cache : Option (List Row)) (r : PyVal),
        j.fileExists = true → jobFails j = true →
        (process_single_image j cache).1 = some r →
        objKeys r = ["description", "entities", "actions", "error"] ∧
        getField r "transcript" = none) ∧
    (∀ (j : FrameJob) (cache : Option (List Row)) (r : PyVal),
        j.fileExists = true → jobFails j = false →
        (process_single_image j cache).1 = some r →
        ∃ w, getField r "transcript" = some (.str w)) := by
  constructor
  · intro j cache r hfe hfail hr
    obtain ⟨m, hm⟩ := psi_error_record j cache hfe hfail
    have hval : caption_error_entry m = r := Option.some.inj (hm.symm.trans hr)
    subst hval
    exact ⟨rfl, rfl⟩
  · intro j cache r hfe hok hr
    obtain ⟨fe, stem, ro, resp⟩ := j
    cases fe with
    | false => simp at hfe
    | true =>
        cases stem with
        | none => simp [jobFails] at hok
        | some ts =>
            cases ro with
            | false => simp [jobFails] at hok
            | true =>
                cases resp with
                | none => simp [jobFails] at hok
                | some inner =>
                    cases inner with
                    | none => simp [jobFails] at hok
                    | some content =>
                        cases content with
                        | null => simp [jobFails] at hok
                        | bool b => simp [jobFails] at hok
                        | num q => simp [jobFails] at hok
                        | str s => simp [jobFails] at hok
                        | arr l => simp [jobFails] at hok
                        | set l => simp [jobFails] at hok
                        | obj fields =>
                            have hval : PyVal.obj (setKey fields "transcript"
                                (.str (get_transcript_from_cache cache ts))) = r :=
                              Option.some.inj hr
                            subst hval
                            exact ⟨get_transcript_from_cache cache ts, by
                              simpa [getField] using
                                lookupKey_setKey_same fields "transcript"
                                  (.str (get_transcript_from_cache cache ts))⟩

/-- C10 witness: the field law evaluated on a failing job (inference call
raising) and on a succeeding job (empty-object response). -/
theorem claim10_witness :
    (objKeys (caption_error_entry "inference call failed") =
        ["description", "entities", "actions", "error"] ∧
     getField (caption_error_entry "inference call failed") "transcript" = none) ∧
    (∃ w, getField (PyVal.obj [("transcript", PyVal.str "no transcription available")])
        "transcript" = some (PyVal.str w)) :=
  ⟨claim10_record_fields.1 ⟨true, some 1, true, none⟩ none
      (caption_error_entry "inference call failed") rfl rfl rfl,
   claim10_record_fields.2 ⟨true, some 1, true, some (some (.obj []))⟩ none
      (PyVal.obj [("transcript", PyVal.str "no transcription available")]) rfl rfl rfl⟩

/-- C6: on the success path the persisted record is the model response
object with its transcript field set to the exact window string the worker
computed for the frame timestamp (a model-echoed transcript value is
overwritten); every other field is exactly the response field, and the
record survives a save/load round trip unchanged. -/
theorem claim6_transcript_provenance :
    ∀ (cache : Option (List Row)) (ts : ℚ) (fields : List (String × PyVal))
      (st : List (String × PyVal)) (key : String),
      process_single_image ⟨true, some ts, true, some (some (.obj fields))⟩ cache =
        (some (.obj (setKey fields "transcript"
            (.str (get_transcript_from_cache cache ts)))), "ok") ∧
      getField (.obj (setKey fields "transcript"
            (.str (get_transcript_from_cache cache ts)))) "transcript" =
        some (.str (get_transcript_from_cache cache ts)) ∧
      (∀ k, k ≠ "transcript" →
        getField (.obj (setKey fields "transcript"
            (.str (get_transcript_from_cache cache ts)))) k = lookupKey fields k) ∧
      store_load (store_save st key (.obj (setKey fields "transcript"
            (.str (get_transcript_from_cache cache ts))))) key =
        some (.obj (setKey fields "transcript"
            (.str (get_transcript_from_cache cache ts)))) := by
  intro cache ts fields st key
  refine ⟨rfl, ?_, ?_, ?_⟩
  · simpa [getField] using
      lookupKey_setKey_same fields "transcript" (.str (get_transcript_from_cache cache ts))
  · intro k hk
    simpa [getField] using
      lookupKey_setKey_other fields "transcript" k
        (.str (get_transcript_from_cache cache ts)) hk
  · simpa [store_load, store_save] using
      lookupKey_setKey_same st key
        (.obj (setKey fields "transcript" (.str (get_transcript_from_cache cache ts))))

/-- C6 witness: a response that even echoes a transcript field has it
overwritten with the computed window string, the other field is kept, and
the record round-trips through the store. -/
theorem claim6_witness :
    process_single_image ⟨true, some 1, true,
        some (some (.obj [("description", PyVal.str "a frame"),
                          ("transcript", PyVal.str "model echo")]))⟩ none =
      (some (.obj [("description", PyVal.str "a frame"),
                   ("transcript", PyVal.str "no transcription available")]), "ok") ∧
    ("description" : String) ≠ "transcript" ∧
    getField (.obj [("description", PyVal.str "a frame"),
                    ("transcript", PyVal.str "no transcription available")]) "description" =
      lookupKey [("description", PyVal.str "a frame"),
                 ("transcript", PyVal.str "model echo")] "description" :=
  ⟨(claim6_transcript_provenance none 1
      [("description", PyVal.str "a frame"), ("transcript", PyVal.str "model echo")]
      [] "1.00.jpg").1,
   by decide,
   (claim6_transcript_provenance none 1
      [("description", PyVal.str "a frame"), ("transcript", PyVal.str "model echo")]
      [] "1.00.jpg").2.2.1 "description" (by decide)⟩

/-- C4: the transcript window query returns exactly the words of the rows
whose parsable start_sec lies within the radius of the timestamp, joined
with single spaces in stored order; it returns the literal "silence" when
rows exist but none match, "no transcription available" when there is no
data at all (missing file or empty row list), and rows with non-numeric
start_sec are skipped (the query is total, it never raises). -/
theorem claim4_window_query :
    ∀ (t r : ℚ) (rows : List Row),
      get_transcript_from_cache none t r = "no transcription available" ∧
      get_transcript_from_cache (some []) t r = "no transcription available" ∧
      (rows ≠ [] → window_words rows t r = [] →
        get_transcript_from_cache (some rows) t r = "silence") ∧
      (window_words rows t r ≠ [] →
        get_transcript_from_cache (some rows) t r =
          String.intercalate " " (window_words rows t r)) := by
  intro t r rows
  have hfm := transcript_filterMap_eq_window_words rows t r
  refine ⟨rfl, rfl, ?_, ?_⟩
  · intro hne hw
    have hemp : rows.isEmpty = false := by simpa [List.isEmpty_iff] using hne
    simp [get_transcript_from_cache, hemp, hfm, hw]
  · intro hw
    have hne : rows ≠ [] := by
      intro h
      subst h
      exact hw rfl
    have hemp : rows.isEmpty = false := by simpa [List.isEmpty_iff] using hne
    have hwemp : (window_words rows t r).isEmpty = false := by
      simpa [List.isEmpty_iff] using hw
    simp [get_transcript_from_cache, hemp, hfm, hwemp]

/-- C4 witness: the spec scenario — rows at 1.0, 1.5, 8.0 seconds, window
of radius 3 around 2.0 — selects the first two words joined by a space. -/
theorem claim4_witness :
    window_words [⟨some 1, "word1"⟩, ⟨some (3/2), "word2"⟩, ⟨some 8, "word3"⟩] 2 3 =
      ["word1", "word2"] ∧
    get_transcript_from_cache
      (some [⟨some 1, "word1"⟩, ⟨some (3/2), "word2"⟩, ⟨some 8, "word3"⟩]) 2 3 =
      "word1 word2" := by
  have hww : window_words [⟨some 1, "word1"⟩, ⟨some (3/2), "word2"⟩, ⟨some 8, "word3"⟩] 2 3 =
      ["word1", "word2"] := by
    norm_num [window_words, List.filter, abs_le]
  refine ⟨hww, ?_⟩
  have h := (claim4_window_query 2 3
      [⟨some 1, "word1"⟩, ⟨some (3/2), "word2"⟩, ⟨some 8, "word3"⟩]).2.2.2
      (by rw [hww]; simp)
  rw [h, hww]
  rfl

/-- C5 counterexample.  A persisted but empty (falsy) GlobalContext
document exists and force_rebuild is false, yet `execute` takes the
rebuild path: inference is issued and the rebuilt document, not the
persisted one, is returned. -/
theorem claim5_counterexample :
    (gcb_execute (some (PyVal.obj [])) false
        (PyVal.obj [("summary", PyVal.str "rebuilt")])).2.2 = true ∧
    (gcb_execute (some (PyVal.obj [])) false
        (PyVal.obj [("summary", PyVal.str "rebuilt")])).1 ≠ PyVal.obj [] := by
  refine ⟨rfl, ?_⟩
  simp [gcb_execute, truthy]

/-- C5 (amended): if a persisted GlobalContext document exists, is truthy
(non-empty), and force_rebuild is false, `execute` returns it without
issuing any inference call and leaves the store unchanged; hence after a
first call persists a truthy document, a second call with
force_rebuild=false returns the identical document and performs no
inference. -/
theorem claim5_cached_context :
    (∀ (ctx built : PyVal), truthy ctx = true →
        gcb_execute (some ctx) false built = (ctx, some ctx, false)) ∧
    (∀ (built built2 : PyVal), truthy built = true →
        gcb_execute (gcb_execute none false built).2.1 false built2 =
          (built, some built, false)) := by
  constructor
  · intro ctx built h
    simp [gcb_execute, h]
  · intro built built2 h
    show gcb_execute (some built) false built2 = (built, some built, false)
    simp [gcb_execute, h]

/-- C5 witness: a persisted non-empty document is returned as-is with no
inference on a repeat call. -/
theorem claim5_witness :
    truthy (PyVal.obj [("summary", PyVal.str "s")]) = true ∧
    gcb_execute (some (PyVal.obj [("summary", PyVal.str "s")])) false PyVal.null =
      (PyVal.obj [("summary", PyVal.str "s")],
       some (PyVal.obj [("summary", PyVal.str "s")]), false) :=
  ⟨rfl, claim5_cached_context.1 (PyVal.obj [("summary", PyVal.str "s")]) PyVal.null rfl⟩

/-- C9: pass-1 sampling selects at most max_frames frames; when the frame
count is at most max_frames it selects all frames (sorted), and otherwise
it takes the frames at the floor(i * step) indices for i in
0..max_frames-2 together with the final index, deduplicated and sorted
increasing, all indices being in range. -/
theorem claim9_sampling :
    ∀ (images : List ℚ) (m : ℕ), 2 ≤ m →
      (sample_keyframes images m).length ≤ m ∧
      (images.length ≤ m → sample_keyframes images m = images.insertionSort (· ≤ ·)) ∧
      (m < images.length →
        (sample_keyframes images m =
          ((sample_idx_list images.length m).dedup.insertionSort (· ≤ ·)).map
            (fun i => (images.insertionSort (· ≤ ·)).getD i 0)) ∧
        ∀ i ∈ sample_idx_list images.length m, i < images.length) := by
  intro images m hm
  have hlen : (images.insertionSort (· ≤ ·)).length = images.length :=
    (List.perm_insertionSort _ images).length_eq
  by_cases hle : images.length ≤ m
  · have hbr : sample_keyframes images m = images.insertionSort (· ≤ ·) := by
      simp only [sample_keyframes]
      rw [if_pos (by rw [hlen]; exact hle)]
    refine ⟨?_, fun _ => hbr, fun hlt => absurd hle (by omega)⟩
    rw [hbr, hlen]
    exact hle
  · have hlt : m < images.length := by omega
    have hcond : ¬ (images.insertionSort (· ≤ ·)).length ≤ m := by
      rw [hlen]
      omega
    have hbr : sample_keyframes images m =
        ((sample_idx_list images.length m).dedup.insertionSort (· ≤ ·)).map
          (fun i => (images.insertionSort (· ≤ ·)).getD i 0) := by
      simp only [sample_keyframes]
      rw [if_neg hcond, hlen]
    have hidxlen : (sample_idx_list images.length m).length = m := by
      simp only [sample_idx_list, List.length_append, List.length_map,
        List.length_range, List.length_singleton]
      omega
    refine ⟨?_, fun hle2 => absurd hle2 (by omega), fun _ => ⟨hbr, ?_⟩⟩
    · rw [hbr, List.length_map, (List.perm_insertionSort _ _).length_eq]
      calc (sample_idx_list images.length m).dedup.length
          ≤ (sample_idx_list images.length m).length := (List.dedup_sublist _).length_le
        _ = m := hidxlen
    · intro i hi
      simp only [sample_idx_list, List.mem_append, List.mem_map,
        List.mem_range, List.mem_singleton] at hi
      rcases hi with ⟨j, hj, rfl⟩ | rfl
      · have hn : 0 < images.length := by omega
        have hm1 : (0 : ℚ) < (m : ℚ) - 1 := by
          have h2 : (2 : ℚ) ≤ (m : ℚ) := by exact_mod_cast hm
          linarith
        have hj2 : (j : ℚ) < (m : ℚ) - 1 := by
          have hj1 : (j : ℚ) < ((m - 1 : ℕ) : ℚ) := by exact_mod_cast hj
          rwa [Nat.cast_sub (by omega), Nat.cast_one] at hj1
        have hstep : (0 : ℚ) < (images.length : ℚ) / ((m : ℚ) - 1) :=
          div_pos (by exact_mod_cast hn) hm1
        have hval : (j : ℚ) * ((images.length : ℚ) / ((m : ℚ) - 1)) <
            (images.length : ℚ) := by
          calc (j : ℚ) * ((images.length : ℚ) / ((m : ℚ) - 1))
              < ((m : ℚ) - 1) * ((images.length : ℚ) / ((m : ℚ) - 1)) :=
                mul_lt_mul_of_pos_right hj2 hstep
            _ = (images.length : ℚ) := by field_simp
        have hfl : ⌊(j : ℚ) * ((images.length : ℚ) / ((m : ℚ) - 1))⌋ <
            (images.length : ℤ) := Int.floor_lt.mpr (by exact_mod_cast hval)
        omega
      · omega

/-- C9 witness: the sampling bound evaluated with the default max_frames
of 8 on a 10-frame plan. -/
theorem claim9_witness :
    2 ≤ 8 ∧ (sample_keyframes [0, 1, 2, 3, 4, 5, 6, 7, 8, 9] 8).length ≤ 8 :=
  ⟨by decide, (claim9_sampling [0, 1, 2, 3, 4, 5, 6, 7, 8, 9] 8 (by decide)).1⟩
